import Mathlib

/-!
Shallow embedding of the TFTP client in `src/main.py` and verification of the
specification's claims about it.

Modelling conventions:
* Byte buffers are `List Nat`; datagrams coming from the network are assumed to
  consist of bytes `< 256` where a theorem needs that fact (stated as an
  explicit hypothesis).
* `struct.pack("!H", n)` raises `struct.error` when `n ≥ 65536`; packing is
  therefore `Except String`.  `struct.unpack("!HH", buf[:4])` raises when the
  buffer holds fewer than 4 bytes.  An exception that the Python code does not
  catch (only `socket.timeout` is caught) aborts the transfer; this is the
  `crash` outcome below.
* The sequence of `recvfrom` results observed by a run is a finite script
  `List (Option Buf)`: `none` is a `socket.timeout`, `some buf` a datagram.
  A run that consumes the whole script without terminating gets the `hang`
  outcome (the real program would still be blocking on the socket).
* Side effects are recorded as an event trace: file open, packet sends, file
  writes, receives, socket close.  The file sink of a download is the list of
  `write` events, in order, starting from an empty (truncated) file.
-/

namespace TFTP

abbrev Buf := List Nat

/-- Model of `struct.pack("!H", n)`: two big-endian bytes; `struct.error` if `n ≥ 2^16`. -/
def packH (n : Nat) : Except String Buf :=
  if n < 65536 then .ok [n / 256, n % 256] else .error "struct.error"

/-- Model of `struct.pack("!HH", a, b)`. -/
def packHH (a b : Nat) : Except String Buf :=
  match packH a, packH b with
  | .ok x, .ok y => .ok (x ++ y)
  | _, _ => .error "struct.error"

/-- Model of `struct.unpack("!HH", buf[:4])`: reads the first four bytes as two
big-endian 16-bit fields; `struct.error` if fewer than four bytes arrive. -/
def unpackHH (buf : Buf) : Except String (Nat × Nat) :=
  match buf with
  | b0 :: b1 :: b2 :: b3 :: _ => .ok (b0 * 256 + b1, b2 * 256 + b3)
  | _ => .error "struct.error"

/-- Model of one fixed-size `s` field of `struct.pack`: truncate to `size` bytes or pad with NULs. -/
def packS (size : Nat) (xs : Buf) : Buf :=
  xs.take size ++ List.replicate (size - xs.length) 0

/-- Model of `build_request(opcode, filename, mode)` from `src/main.py` line 19:
`struct.pack(f"!H{len(filename)+1}s{len(mode)+1}s", opcode, filename.encode(),
mode.encode())`.  Filename and mode are modelled by their byte encodings
(one byte per character, i.e. ASCII — the only case the claims quantify over),
so each `s` field pads the string with exactly one NUL byte. -/
def build_request (opcode : Nat) (filename mode : Buf) : Except String Buf :=
  match packH opcode with
  | .ok opb => .ok (opb ++ packS (filename.length + 1) filename ++ packS (mode.length + 1) mode)
  | .error e => .error e

/-- Observable side effects of a run. -/
inductive Ev
  | openFile
  | send (pkt : Buf)
  | recvBuf (pkt : Buf)
  | recvTimeout
  | write (data : Buf)
  | close
deriving DecidableEq

/-- How `handle_put` can end. `crash` is an uncaught Python exception,
`hang` means the receive script was exhausted mid-transfer. -/
inductive PutOutcome
  | done | invalidAck | timeout | crash | hang | noFile
deriving DecidableEq

/-- How `handle_get` can end. -/
inductive GetOutcome
  | done | invalidData | timeout | crash | hang
deriving DecidableEq

/-- The upload loop of `handle_put` (`src/main.py` lines 36-56), entered with
`block` already incremented to the number of the chunk about to be sent.
Per iteration: read up to 512 bytes, pack the DATA header (raising if the
block number no longer fits 16 bits), send, receive one reply, unpack it
(uncaught `struct.error` if shorter than 4 bytes), validate opcode/block,
and stop after a chunk shorter than 512 bytes. -/
def putLoop : Nat → Buf → List (Option Buf) → PutOutcome × List Ev
  | block, rest, [] =>
    match packHH 3 block with
    | .error _ => (.crash, [])
    | .ok hdr => (.hang, [.send (hdr ++ rest.take 512)])
  | block, rest, none :: _ =>
    match packHH 3 block with
    | .error _ => (.crash, [])
    | .ok hdr => (.timeout, [.send (hdr ++ rest.take 512), .recvTimeout])
  | block, rest, some r :: rest2 =>
    match packHH 3 block with
    | .error _ => (.crash, [])
    | .ok hdr =>
      match unpackHH r with
      | .error _ => (.crash, [.send (hdr ++ rest.take 512), .recvBuf r])
      | .ok (op, ab) =>
        if op ≠ 4 ∨ ab ≠ block then
          (.invalidAck, [.send (hdr ++ rest.take 512), .recvBuf r])
        else if (rest.take 512).length < 512 then
          (.done, [.send (hdr ++ rest.take 512), .recvBuf r])
        else
          let next := putLoop (block + 1) (rest.drop 512) rest2
          (next.1, .send (hdr ++ rest.take 512) :: .recvBuf r :: next.2)

/-- Model of `handle_put` (`src/main.py` lines 28-56): bail out before opening anything
if the local file does not exist, otherwise open it and run the upload loop
starting from block number 0 (incremented to 1 at the top of the loop). -/
def handle_put (fileExists : Bool) (fileData : Buf) (script : List (Option Buf)) :
    PutOutcome × List Ev :=
  if fileExists then
    let r := putLoop 1 fileData script
    (r.1, .openFile :: r.2)
  else (.noFile, [])

/-- The download loop of `handle_get` (`src/main.py` lines 62-83), with
`block` the last received block number (initially 0).  Per iteration:
receive, unpack the first four bytes (uncaught `struct.error` if shorter),
validate opcode 3 and block = `block + 1`, write the payload, ack it, and
stop after a payload shorter than 512 bytes. -/
def getLoop : Nat → List (Option Buf) → GetOutcome × List Ev
  | _, [] => (.hang, [])
  | _, none :: _ => (.timeout, [.recvTimeout])
  | block, some r :: rest2 =>
    match unpackHH r with
    | .error _ => (.crash, [.recvBuf r])
    | .ok (op, rb) =>
      if op ≠ 3 ∨ rb ≠ block + 1 then (.invalidData, [.recvBuf r])
      else
        match packHH 4 rb with
        | .error _ => (.crash, [.recvBuf r, .write (r.drop 4)])
        | .ok ack =>
          if (r.drop 4).length < 512 then
            (.done, [.recvBuf r, .write (r.drop 4), .send ack])
          else
            let next := getLoop rb rest2
            (next.1, .recvBuf r :: .write (r.drop 4) :: .send ack :: next.2)

/-- Model of `handle_get` (`src/main.py` lines 58-83): open (create/truncate) the sink
file, then run the download loop from block number 0. -/
def handle_get (script : List (Option Buf)) : GetOutcome × List Ev :=
  let r := getLoop 0 script
  (r.1, .openFile :: r.2)

/-- The operation string read in `main` (`get`, `put`, or anything else). -/
inductive Op
  | get | put | other
deriving DecidableEq

inductive MainOutcome
  | getResult (o : GetOutcome)
  | putResult (o : PutOutcome)
  | invalidOp
  | requestPackError
deriving DecidableEq

/-- The default mode string `"octet"` as bytes. -/
def OCTET : Buf := [111, 99, 116, 101, 116]

/-- Model of `main` (`src/main.py` lines 85-116) for a fixed parsed invocation: build
and send the initial request, run the chosen handler, and close the socket in
a `finally` block — exactly once, on every exit path including exceptions. -/
def mainRun : Op → Bool → Buf → Buf → List (Option Buf) → MainOutcome × List Ev
  | .get, _, filename, _, script =>
    match build_request 1 filename OCTET with
    | .error _ => (.requestPackError, [.close])
    | .ok req =>
      let r := handle_get script
      (.getResult r.1, .send req :: r.2 ++ [.close])
  | .put, fileExists, filename, fileData, script =>
    match build_request 2 filename OCTET with
    | .error _ => (.requestPackError, [.close])
    | .ok req =>
      let r := handle_put fileExists fileData script
      (.putResult r.1, .send req :: r.2 ++ [.close])
  | .other, _, _, _, _ => (.invalidOp, [.close])

/-- The packets passed to `sock.sendto` within a trace. -/
def sentPackets (evs : List Ev) : List Buf :=
  evs.filterMap fun e => match e with | .send p => some p | _ => none

/-- The chunks passed to `file.write` within a trace. -/
def writesOf (evs : List Ev) : List Buf :=
  evs.filterMap fun e => match e with | .write p => some p | _ => none

def isClose : Ev → Bool
  | .close => true
  | _ => false

/-- Number of `sock.close()` calls in a trace. -/
def closeCount (evs : List Ev) : Nat := (evs.filter isClose).length

/-- Wire form of `send_ack`'s packet / a server ACK for block `n`
(meaningful for `n ≤ 65535`). -/
def mkAck (n : Nat) : Buf := [0, 4, n / 256, n % 256]

/-- A receive script in which the server acknowledges `m` consecutive blocks
starting at block `b`. -/
def ackScript (b : Nat) : Nat → List (Option Buf)
  | 0 => []
  | m + 1 => some (mkAck b) :: ackScript (b + 1) m

/-- A receive script in which the server delivers the given payloads as DATA
packets with consecutive block numbers starting at `b + 1`. -/
def dataScript (b : Nat) : List Buf → List (Option Buf)
  | [] => []
  | p :: ps => some ([0, 3, (b + 1) / 256, (b + 1) % 256] ++ p) :: dataScript (b + 1) ps

/-- The event trace produced by the download loop while it consumes
`dataScript b ps` (full 512-byte payloads). -/
def getOkTrace (b : Nat) : List Buf → List Ev
  | [] => []
  | p :: ps =>
    .recvBuf ([0, 3, (b + 1) / 256, (b + 1) % 256] ++ p) :: .write p ::
      .send [0, 4, (b + 1) / 256, (b + 1) % 256] :: getOkTrace (b + 1) ps

/-- The event trace of a fully acknowledged upload of `m + 1` chunks starting
at block `b` with remaining file content `rest`. -/
def putDoneTrace (b : Nat) (rest : Buf) : Nat → List Ev
  | 0 => [.send ([0, 3, b / 256, b % 256] ++ rest.take 512), .recvBuf (mkAck b)]
  | m + 1 =>
    .send ([0, 3, b / 256, b % 256] ++ rest.take 512) :: .recvBuf (mkAck b) ::
      putDoneTrace (b + 1) (rest.drop 512) m

/-- The DATA packets of a fully acknowledged upload of `m + 1` chunks starting
at block `b` with remaining file content `rest`. -/
def expectedSents (b : Nat) (rest : Buf) : Nat → List Buf
  | 0 => [[0, 3, b / 256, b % 256] ++ rest.take 512]
  | m + 1 =>
    ([0, 3, b / 256, b % 256] ++ rest.take 512) :: expectedSents (b + 1) (rest.drop 512) m

/-- Split a byte list at its first NUL byte (the bytes before it, the bytes
after it); `none` if there is no NUL. -/
def splitAtNul : Buf → Option (Buf × Buf)
  | [] => none
  | x :: xs =>
    if x = 0 then some ([], xs)
    else
      match splitAtNul xs with
      | some (a, b) => some (x :: a, b)
      | none => none

/-- Modelled from the spec: no code in `src/` ever decodes a request packet
(the client only builds them; parsing happens on the absent server side), so
the decoding direction of the round-trip in §8 is taken from the wire layout
of §4.1/§6: 2-byte big-endian opcode (RRQ=1 or WRQ=2), then the filename
bytes up to a NUL, then the mode bytes up to a NUL, with nothing after. -/
def decodeRequestSpec (buf : Buf) : Option (Nat × Buf × Buf) :=
  match buf with
  | b0 :: b1 :: rest =>
    if b0 * 256 + b1 = 1 ∨ b0 * 256 + b1 = 2 then
      match splitAtNul rest with
      | some (fname, rest2) =>
        match splitAtNul rest2 with
        | some (mode, rest3) =>
          if rest3 = [] then some (b0 * 256 + b1, fname, mode) else none
        | none => none
      | none => none
    else none
  | _ => none

end TFTP

namespace TFTP

-- sanity checks on concrete runs
example : getLoop 0 [some [0, 3, 0, 1]] =
    (.done, [.recvBuf [0, 3, 0, 1], .write [], .send [0, 4, 0, 1]]) := by decide

example : (handle_put true [7, 7] [some [0, 4, 0, 1]]) =
    (.done, [.openFile, .send [0, 3, 0, 1, 7, 7], .recvBuf [0, 4, 0, 1]]) := by decide

example : build_request 1 [97] OCTET =
    .ok [0, 1, 97, 0, 111, 99, 116, 101, 116, 0] := rfl

/-! ### Helper lemmas about the packing primitives -/

lemma unpackHH_cons (b0 b1 b2 b3 : Nat) (t : Buf) :
    unpackHH (b0 :: b1 :: b2 :: b3 :: t) = .ok (b0 * 256 + b1, b2 * 256 + b3) := rfl

lemma unpackHH_short : ∀ (buf : Buf), buf.length < 4 →
    unpackHH buf = .error "struct.error"
  | [], _ => rfl
  | [_], _ => rfl
  | [_, _], _ => rfl
  | [_, _, _], _ => rfl
  | _ :: _ :: _ :: _ :: _, h => by simp only [List.length_cons] at h; omega

lemma packHH_eq (a b : Nat) (ha : a < 65536) (hb : b < 65536) :
    packHH a b = .ok [a / 256, a % 256, b / 256, b % 256] := by
  simp [packHH, packH, ha, hb]

lemma unpackHH_mkAck (b : Nat) : unpackHH (mkAck b) = .ok (4, b) := by
  have h : b / 256 * 256 + b % 256 = b := by omega
  simp [mkAck, unpackHH, h]

/-! ### Claim C1: block-number wraparound -/

/-- With a fully acknowledging server, the upload loop crashes with an uncaught
`struct.error` as soon as the block counter reaches 65536: the Python counter
is a plain `int` that is never reduced mod 65536, and `struct.pack("!HH", 3,
65536)` raises. -/
lemma handle_put_true (fd : Buf) (s : List (Option Buf)) :
    handle_put true fd s = ((putLoop 1 fd s).1, .openFile :: (putLoop 1 fd s).2) := rfl

lemma handle_put_true_fst (fd : Buf) (s : List (Option Buf)) :
    (handle_put true fd s).1 = (putLoop 1 fd s).1 := rfl

lemma handle_put_false (fd : Buf) (s : List (Option Buf)) :
    handle_put false fd s = (.noFile, []) := rfl

lemma handle_get_eq (s : List (Option Buf)) :
    handle_get s = ((getLoop 0 s).1, .openFile :: (getLoop 0 s).2) := rfl

lemma putLoop_crash_of_wrap :
    ∀ (m b : Nat) (rest : Buf) (script tl : List (Option Buf)),
      script = ackScript b m ++ tl →
      rest.length = m * 512 → b + m = 65536 →
      (putLoop b rest script).1 = .crash := by
  intro m
  induction m with
  | zero =>
    intro b rest script tl hscript hlen hb
    have hb' : b = 65536 := by omega
    subst hb'
    rw [hscript]
    have hpe : packHH 3 65536 = .error "struct.error" := rfl
    rcases tl with _ | ⟨_ | buf, t⟩ <;> simp [ackScript, putLoop, hpe]
  | succ m ih =>
    intro b rest script tl hscript hlen hb
    have hb512 : b < 65536 := by omega
    have hpack : packHH 3 b = .ok [0, 3, b / 256, b % 256] := by
      have h3 : (3 : Nat) / 256 = 0 := by omega
      have h4 : (3 : Nat) % 256 = 3 := by omega
      rw [packHH_eq 3 b (by omega) hb512, h3, h4]
    have hdata : (rest.take 512).length = 512 := by
      simp only [List.length_take]
      omega
    rw [hscript]
    show (putLoop b rest ((some (mkAck b) :: ackScript (b + 1) m) ++ tl)).1 = .crash
    rw [List.cons_append]
    simp only [putLoop, hpack, unpackHH_mkAck, hdata]
    rw [if_neg (by simp)]
    rw [if_neg (by omega)]
    show (putLoop (b + 1) (rest.drop 512) (ackScript (b + 1) m ++ tl)).1 = .crash
    exact ih (b + 1) (rest.drop 512) _ tl rfl (by simp [List.length_drop]; omega)
      (by omega)

/-- Claim C1: the specification says block numbers are tracked modulo 65536 and
a transfer crossing block 65535 to 0 encodes/decodes/validates the wrapped
value.  The code does neither: an upload whose block counter reaches 65536
(file of 65535 full chunks, every block acknowledged) aborts with an uncaught
`struct.error` instead of sending block 0, and the download loop's validation
at current block 65535 rejects a wrapped DATA packet with block field 0
(it compares against 65535 + 1 = 65536, which no 2-byte field can equal). -/
theorem c1_wraparound_crash :
    (handle_put true (List.replicate (65535 * 512) 0) (ackScript 1 65535)).1
      = PutOutcome.crash
    ∧ (getLoop 65535 [some [0, 3, 0, 0]]).1 = GetOutcome.invalidData := by
  constructor
  · have h := putLoop_crash_of_wrap 65535 1 (List.replicate (65535 * 512) 0)
      (ackScript 1 65535) [] (List.append_nil _).symm (List.length_replicate _ _)
      (by omega)
    rw [handle_put_true_fst]
    exact h
  · decide

/-! ### Claim C2: ERROR packets during a download -/

/-- Claim C2 (counterexample): an inbound ERROR packet (opcode 5, error code 1,
message "f") during a download produces exactly the same outcome — the generic
"Invalid DATA packet" break — as a wrong-block DATA packet; the server's error
code and message are never surfaced, so no `ServerError` condition distinct
from `UnexpectedPacket` exists. -/
theorem c2_error_packet_not_distinguished :
    (getLoop 0 [some [0, 5, 0, 1, 102, 0]]).1 = GetOutcome.invalidData
    ∧ (getLoop 0 [some [0, 3, 0, 9]]).1 = GetOutcome.invalidData := by
  decide

/-- Claim C2 (amended): during a download, any inbound packet whose first two
bytes decode to opcode 5 (an ERROR packet) makes the session stop through the
same invalid-packet branch as any unexpected packet, with no write, no ACK,
and no decoding of the error code or message. -/
theorem c2_amended_error_is_generic_invalid (b2 b3 : Nat) (tailBytes : Buf)
    (rest : List (Option Buf)) (block : Nat) :
    getLoop block (some (0 :: 5 :: b2 :: b3 :: tailBytes) :: rest)
      = (.invalidData, [.recvBuf (0 :: 5 :: b2 :: b3 :: tailBytes)]) := by
  simp [getLoop, unpackHH]

/-! ### Claim C3: decoding malformed inbound buffers -/

/-- Claim C3 (counterexample): the claim says a buffer shorter than 2 bytes
fails with `Truncated` and an opcode outside {1..5} fails with
`UnknownOpcode`, never aborting the program otherwise.  In the code a 1-byte
buffer raises an uncaught `struct.error` (aborting the transfer), and a 4-byte
buffer with opcode 9 is handled by the generic invalid-packet branch — there
is no `Truncated`/`UnknownOpcode` classification at all. -/
theorem c3_short_buffer_aborts :
    (getLoop 0 [some [9]]).1 = GetOutcome.crash
    ∧ (getLoop 0 [some [0, 9, 0, 1]]).1 = GetOutcome.invalidData := by
  decide

/-- Claim C3 (amended): the handlers have no standalone decoder; they unpack
the first four bytes of each inbound buffer directly.  Any buffer shorter than
4 bytes (in particular shorter than 2) raises an uncaught `struct.error` that
aborts the transfer, in both directions; a buffer of at least 4 bytes (of
genuine bytes `< 256`) never aborts — opcodes other than the expected one,
unknown opcodes included, are rejected by the opcode check as invalid
packets. -/
theorem c3_amended_unpack_behavior (buf : Buf) (block : Nat) (fd : Buf) :
    (buf.length < 4 →
      getLoop block [some buf] = (.crash, [.recvBuf buf])
      ∧ (handle_put true fd [some buf]).1 = .crash)
    ∧ (4 ≤ buf.length → (∀ x ∈ buf, x < 256) →
      (getLoop block [some buf]).1 ≠ GetOutcome.crash) := by
  constructor
  · intro h
    have he := unpackHH_short buf h
    refine ⟨by simp [getLoop, he], ?_⟩
    have hpack : packHH 3 1 = .ok [0, 3, 0, 1] := rfl
    simp [handle_put, putLoop, hpack, he]
  · intro h hb
    rcases buf with _ | ⟨b0, _ | ⟨b1, _ | ⟨b2, _ | ⟨b3, t⟩⟩⟩⟩ <;>
      simp only [List.length_cons, List.length_nil] at h <;> try omega
    have hb2 : b2 < 256 := hb b2 (by simp)
    have hb3 : b3 < 256 := hb b3 (by simp)
    have hrb : b2 * 256 + b3 < 65536 := by omega
    simp only [getLoop, unpackHH_cons]
    by_cases hc : b0 * 256 + b1 ≠ 3 ∨ b2 * 256 + b3 ≠ block + 1
    · rw [if_pos hc]
      simp
    · rw [if_neg hc]
      have hp : packHH 4 (b2 * 256 + b3)
          = .ok [0, 4, (b2 * 256 + b3) / 256, (b2 * 256 + b3) % 256] := by
        have h4a : (4 : Nat) / 256 = 0 := by omega
        have h4b : (4 : Nat) % 256 = 4 := by omega
        rw [packHH_eq 4 (b2 * 256 + b3) (by omega) hrb, h4a, h4b]
      simp only [hp]
      by_cases hd : ((b0 :: b1 :: b2 :: b3 :: t).drop 4).length < 512
      · rw [if_pos hd]
        simp
      · rw [if_neg hd]
        simp [getLoop]

/-- Witness for `c3_amended_unpack_behavior` at the concrete buffers `[9]`
(short: crash) and `[0, 3, 9, 9]` (4 bytes: no crash). -/
theorem c3_amended_unpack_behavior_witness :
    (getLoop 0 [some [9]] = (.crash, [.recvBuf [9]])
      ∧ (handle_put true [] [some [9]]).1 = .crash)
    ∧ (getLoop 0 [some [0, 3, 9, 9]]).1 ≠ GetOutcome.crash :=
  ⟨(c3_amended_unpack_behavior [9] 0 []).1 (by decide),
   (c3_amended_unpack_behavior [0, 3, 9, 9] 0 []).2 (by decide) (by decide)⟩

/-! ### Claim C6: block mismatch during an upload -/

/-- Claim C6: if the reply to the first DATA packet of an upload decodes to
anything other than `Ack(1)` — wrong opcode or wrong block number — the
session stops in the invalid-ACK branch ("Error: Invalid ACK received.", the
code's `UnexpectedPacket` condition) having sent exactly one DATA packet and
nothing after it. -/
theorem c6_upload_bad_ack (fd : Buf) (buf : Buf) (op ab : Nat)
    (tl : List (Option Buf))
    (hdec : unpackHH buf = .ok (op, ab)) (hbad : op ≠ 4 ∨ ab ≠ 1) :
    handle_put true fd (some buf :: tl)
      = (.invalidAck,
         [.openFile, .send ([0, 3, 0, 1] ++ fd.take 512), .recvBuf buf]) := by
  rw [handle_put_true]
  have hpack : packHH 3 1 = .ok [0, 3, 0, 1] := rfl
  simp only [putLoop, hpack, hdec]
  rw [if_pos hbad]

/-- Witness for `c6_upload_bad_ack`: the claim's own example, `Ack(2)` in
reply to DATA block 1. -/
theorem c6_upload_bad_ack_witness :
    handle_put true [1, 2, 3] [some [0, 4, 0, 2]]
      = (.invalidAck,
         [.openFile, .send ([0, 3, 0, 1] ++ List.take 512 [1, 2, 3]),
          .recvBuf [0, 4, 0, 2]]) :=
  c6_upload_bad_ack [1, 2, 3] [0, 4, 0, 2] 4 2 [] rfl (by decide)

/-! ### Claim C7: timeout and single close -/

lemma putLoop_filter_close :
    ∀ (script : List (Option Buf)) (b : Nat) (rest : Buf),
      (putLoop b rest script).2.filter isClose = [] := by
  intro script
  induction script with
  | nil =>
    intro b rest
    rcases h : packHH 3 b with e | hdr <;> simp [putLoop, h, isClose]
  | cons r tl ih =>
    intro b rest
    rcases h : packHH 3 b with e | hdr
    · rcases r with _ | buf <;> simp [putLoop, h, isClose]
    · rcases r with _ | buf
      · simp [putLoop, h, isClose]
      · rcases h2 : unpackHH buf with e2 | ⟨op, ab⟩
        · simp [putLoop, h, h2, isClose]
        · by_cases h3 : op ≠ 4 ∨ ab ≠ b
          · simp [putLoop, h, h2, h3, isClose]
          · simp only [putLoop, h, h2]
            rw [if_neg h3]
            by_cases h4 : (rest.take 512).length < 512
            · rw [if_pos h4]; simp [isClose]
            · rw [if_neg h4]; simp [isClose, ih]

lemma getLoop_filter_close :
    ∀ (script : List (Option Buf)) (b : Nat),
      (getLoop b script).2.filter isClose = [] := by
  intro script
  induction script with
  | nil => intro b; simp [getLoop]
  | cons r tl ih =>
    intro b
    rcases r with _ | buf
    · simp [getLoop, isClose]
    · rcases h2 : unpackHH buf with e2 | ⟨op, rb⟩
      · simp [getLoop, h2, isClose]
      · by_cases h3 : op ≠ 3 ∨ rb ≠ b + 1
        · simp [getLoop, h2, h3, isClose]
        · simp only [getLoop, h2]
          rw [if_neg h3]
          rcases h4 : packHH 4 rb with e4 | ack
          · simp [h4, isClose]
          · simp only [h4]
            by_cases h5 : (buf.drop 4).length < 512
            · rw [if_pos h5]; simp [isClose]
            · rw [if_neg h5]; simp [isClose, ih]

lemma build_request_small (opcode : Nat) (h : opcode < 65536) (f m : Buf) :
    build_request opcode f m
      = .ok ([opcode / 256, opcode % 256]
          ++ packS (f.length + 1) f ++ packS (m.length + 1) m) := by
  simp [build_request, packH, h]

/-- Claim C7: when the awaited datagram does not arrive (a `socket.timeout`),
both directions stop immediately in the timeout branch — the upload after its
single DATA send, the download with nothing written — and `main` closes the
socket exactly once on every exit path (`finally: sock.close()`), whatever the
operation, file state, or receive script. -/
theorem c7_timeout_and_single_close :
    (∀ (fd : Buf) (tl : List (Option Buf)),
      handle_put true fd (none :: tl)
        = (.timeout, [.openFile, .send ([0, 3, 0, 1] ++ fd.take 512), .recvTimeout]))
    ∧ (∀ (tl : List (Option Buf)),
      handle_get (none :: tl) = (.timeout, [.openFile, .recvTimeout]))
    ∧ (∀ (op : Op) (fe : Bool) (fname fd : Buf) (script : List (Option Buf)),
      closeCount (mainRun op fe fname fd script).2 = 1) := by
  have hpack : packHH 3 1 = .ok [0, 3, 0, 1] := rfl
  refine ⟨?_, ?_, ?_⟩
  · intro fd tl
    rw [handle_put_true]
    simp only [putLoop, hpack]
  · intro tl
    rw [handle_get_eq]
    simp only [getLoop]
  · intro op fe fname fd script
    cases op with
    | get =>
      rw [mainRun, build_request_small 1 (by omega)]
      simp only [handle_get_eq, closeCount]
      simp [List.filter_append, getLoop_filter_close, isClose]
    | put =>
      rw [mainRun, build_request_small 2 (by omega)]
      cases fe with
      | true =>
        simp only [handle_put_true, closeCount]
        simp [List.filter_append, putLoop_filter_close, isClose]
      | false =>
        simp [handle_put_false, closeCount, isClose]
    | other =>
      simp [mainRun, closeCount, isClose]

/-! ### Claim C10: PUT of a missing local file -/

lemma take_two (a b : Nat) (l : Buf) : List.take 2 (a :: b :: l) = [a, b] := rfl

/-- Claim C10: when the local file of a `put` does not exist, `main` has
already sent the WRQ request (opcode bytes `[0, 2]`) before `handle_put`
checks existence; the session then ends with outcome `noFile`, the only sent
packet is that WRQ (no DATA, no ERROR), the sink is never opened, and the
socket is closed exactly once. -/
theorem c10_wrq_sent_despite_missing_file (fname fd : Buf)
    (script : List (Option Buf)) :
    mainRun .put false fname fd script
      = (.putResult .noFile,
         [.send ([0, 2] ++ packS (fname.length + 1) fname ++ packS 6 OCTET), .close])
    ∧ sentPackets (mainRun .put false fname fd script).2
      = [[0, 2] ++ packS (fname.length + 1) fname ++ packS 6 OCTET]
    ∧ (∀ p ∈ sentPackets (mainRun .put false fname fd script).2, p.take 2 = [0, 2])
    ∧ closeCount (mainRun .put false fname fd script).2 = 1
    ∧ Ev.openFile ∉ (mainRun .put false fname fd script).2 := by
  have hmain : mainRun Op.put false fname fd script
      = (.putResult .noFile,
         [.send ([0, 2] ++ packS (fname.length + 1) fname ++ packS 6 OCTET),
          .close]) := by
    rw [mainRun, build_request_small 2 (by omega)]
    simp [handle_put_false, OCTET]
  refine ⟨hmain, ?_, ?_, ?_, ?_⟩ <;> rw [hmain] <;>
    simp [sentPackets, closeCount, isClose, take_two]

/-! ### Claim C4: zero-length final block -/

lemma drop_four (a b c d : Nat) (l : Buf) : List.drop 4 (a :: b :: c :: d :: l) = l := rfl

lemma packHH3_eq (b : Nat) (hb : b < 65536) :
    packHH 3 b = .ok [0, 3, b / 256, b % 256] := by
  have h3 : (3 : Nat) / 256 = 0 := by omega
  have h4 : (3 : Nat) % 256 = 3 := by omega
  rw [packHH_eq 3 b (by omega) hb, h3, h4]

lemma packHH4_eq (b : Nat) (hb : b < 65536) :
    packHH 4 b = .ok [0, 4, b / 256, b % 256] := by
  have h3 : (4 : Nat) / 256 = 0 := by omega
  have h4 : (4 : Nat) % 256 = 4 := by omega
  rw [packHH_eq 4 b (by omega) hb, h3, h4]

/-- One accepted round trip of the upload loop on a full chunk. -/
lemma putLoop_step (b : Nat) (rest : Buf) (r : Buf) (rest2 : List (Option Buf))
    (hb : b < 65536) (hack : unpackHH r = .ok (4, b))
    (hfull : ¬ (rest.take 512).length < 512) :
    putLoop b rest (some r :: rest2)
      = ((putLoop (b + 1) (rest.drop 512) rest2).1,
         .send ([0, 3, b / 256, b % 256] ++ rest.take 512) :: .recvBuf r ::
           (putLoop (b + 1) (rest.drop 512) rest2).2) := by
  simp only [putLoop, packHH3_eq b hb, hack]
  rw [if_neg (by simp), if_neg hfull]

/-- The final accepted round trip of the upload loop on a short chunk. -/
lemma putLoop_last (b : Nat) (rest : Buf) (r : Buf) (rest2 : List (Option Buf))
    (hb : b < 65536) (hack : unpackHH r = .ok (4, b))
    (hshort : (rest.take 512).length < 512) :
    putLoop b rest (some r :: rest2)
      = (.done, [.send ([0, 3, b / 256, b % 256] ++ rest.take 512), .recvBuf r]) := by
  simp only [putLoop, packHH3_eq b hb, hack]
  rw [if_neg (by simp), if_pos hshort]

/-- With a fully acknowledging server, an upload of `m * 512` bytes runs to
`done` in exactly `m + 1` round trips, the last one carrying the empty
chunk. -/
lemma putLoop_ackScript_done :
    ∀ (m b : Nat) (rest : Buf) (script tl : List (Option Buf)),
      script = ackScript b (m + 1) ++ tl →
      rest.length = m * 512 → b + m ≤ 65535 →
      putLoop b rest script = (.done, putDoneTrace b rest m) := by
  intro m
  induction m with
  | zero =>
    intro b rest script tl hscript hlen hb
    rw [hscript]
    show putLoop b rest ((some (mkAck b) :: ackScript (b + 1) 0) ++ tl)
      = (.done, putDoneTrace b rest 0)
    rw [List.cons_append]
    rw [putLoop_last b rest (mkAck b) _ (by omega) (unpackHH_mkAck b)
      (by simp only [List.length_take]; omega)]
    simp [putDoneTrace]
  | succ m ih =>
    intro b rest script tl hscript hlen hb
    rw [hscript]
    show putLoop b rest ((some (mkAck b) :: ackScript (b + 1) (m + 1)) ++ tl)
      = (.done, putDoneTrace b rest (m + 1))
    rw [List.cons_append]
    rw [putLoop_step b rest (mkAck b) _ (by omega) (unpackHH_mkAck b)
      (by simp only [List.length_take]; omega)]
    rw [ih (b + 1) (rest.drop 512) _ tl rfl (by simp [List.length_drop]; omega) (by omega)]
    simp [putDoneTrace]

lemma sentPackets_putDoneTrace :
    ∀ (m b : Nat) (rest : Buf),
      sentPackets (putDoneTrace b rest m) = expectedSents b rest m := by
  intro m
  induction m with
  | zero => intro b rest; simp [putDoneTrace, expectedSents, sentPackets]
  | succ m ih => intro b rest; simp [putDoneTrace, expectedSents, sentPackets, ← ih]

lemma expectedSents_length :
    ∀ (m b : Nat) (rest : Buf), (expectedSents b rest m).length = m + 1 := by
  intro m
  induction m with
  | zero => intro b rest; simp [expectedSents]
  | succ m ih => intro b rest; simp [expectedSents, ih]

lemma expectedSents_getLast :
    ∀ (m b : Nat) (rest : Buf),
      (expectedSents b rest m).getLast?
        = some ([0, 3, (b + m) / 256, (b + m) % 256] ++ (rest.drop (m * 512)).take 512) := by
  intro m
  induction m with
  | zero => intro b rest; simp [expectedSents]
  | succ m ih =>
    intro b rest
    rcases hm : expectedSents (b + 1) (rest.drop 512) m with _ | ⟨y, l⟩
    · exact absurd hm (by cases m <;> simp [expectedSents])
    · rw [expectedSents, hm, List.getLast?_cons_cons, ← hm, ih]
      have h1 : b + 1 + m = b + (m + 1) := by omega
      have h2 : 512 + m * 512 = (m + 1) * 512 := by ring
      rw [List.drop_drop, h1, h2]

/-- Claim C4: a file of exactly `m * 512` bytes is uploaded in `m + 1`
acknowledged DATA packets, the last of which carries a 0-byte payload (its
whole packet is the bare 4-byte header for block `m + 1`), after which the
session is `done`; and on download a DATA packet for the expected block with a
0-byte payload (the bare header) is written, acknowledged with that block
number, and ends the session in `done`. -/
theorem c4_zero_length_final_block (m : Nat) (fileData : Buf)
    (tl : List (Option Buf)) (b : Nat)
    (hlen : fileData.length = m * 512) (hm : 1 + m ≤ 65535) (hb : b + 1 ≤ 65535) :
    handle_put true fileData (ackScript 1 (m + 1) ++ tl)
      = (.done, .openFile :: putDoneTrace 1 fileData m)
    ∧ sentPackets (Ev.openFile :: putDoneTrace 1 fileData m)
      = expectedSents 1 fileData m
    ∧ (expectedSents 1 fileData m).length = m + 1
    ∧ (expectedSents 1 fileData m).getLast?
      = some [0, 3, (1 + m) / 256, (1 + m) % 256]
    ∧ getLoop b [some [0, 3, (b + 1) / 256, (b + 1) % 256]]
      = (.done, [.recvBuf [0, 3, (b + 1) / 256, (b + 1) % 256], .write [],
                 .send [0, 4, (b + 1) / 256, (b + 1) % 256]]) := by
  have hrun := putLoop_ackScript_done m 1 fileData _ tl rfl hlen (by omega)
  refine ⟨?_, ?_, expectedSents_length m 1 fileData, ?_, ?_⟩
  · rw [handle_put_true, hrun]
  · have h1 : sentPackets (Ev.openFile :: putDoneTrace 1 fileData m)
        = sentPackets (putDoneTrace 1 fileData m) := by
      simp [sentPackets]
    rw [h1, sentPackets_putDoneTrace]
  · rw [expectedSents_getLast]
    have hdrop : fileData.drop (m * 512) = [] := by
      rw [List.drop_eq_nil_iff]
      omega
    rw [hdrop]
    simp
  · have hxy : (b + 1) / 256 * 256 + (b + 1) % 256 = b + 1 := by omega
    simp only [getLoop, unpackHH_cons, hxy, drop_four]
    rw [if_neg (by omega)]
    rw [packHH4_eq (b + 1) (by omega)]
    simp

/-- Witness for `c4_zero_length_final_block` at a 1024-byte file (`m = 2`,
three DATA packets, the last one empty) and a terminal empty DATA during a
download at block 0. -/
theorem c4_zero_length_final_block_witness :
    handle_put true (List.replicate 1024 7) (ackScript 1 (2 + 1) ++ [])
      = (.done, .openFile :: putDoneTrace 1 (List.replicate 1024 7) 2)
    ∧ sentPackets (Ev.openFile :: putDoneTrace 1 (List.replicate 1024 7) 2)
      = expectedSents 1 (List.replicate 1024 7) 2
    ∧ (expectedSents 1 (List.replicate 1024 7) 2).length = 2 + 1
    ∧ (expectedSents 1 (List.replicate 1024 7) 2).getLast?
      = some [0, 3, (1 + 2) / 256, (1 + 2) % 256]
    ∧ getLoop 0 [some [0, 3, (0 + 1) / 256, (0 + 1) % 256]]
      = (.done, [.recvBuf [0, 3, (0 + 1) / 256, (0 + 1) % 256], .write [],
                 .send [0, 4, (0 + 1) / 256, (0 + 1) % 256]]) :=
  c4_zero_length_final_block 2 (List.replicate 1024 7) [] 0
    (by rw [List.length_replicate]) (by omega) (by omega)

/-! ### Claim C5: four-block download -/

/-- One accepted round trip of the download loop on a full payload. -/
lemma getLoop_step (b b' : Nat) (r : Buf) (rest2 : List (Option Buf))
    (hb1 : b' = b + 1) (hdec : unpackHH r = .ok (3, b')) (hb : b' < 65536)
    (hfull : ¬ (r.drop 4).length < 512) :
    getLoop b (some r :: rest2)
      = ((getLoop b' rest2).1,
         .recvBuf r :: .write (r.drop 4) :: .send [0, 4, b' / 256, b' % 256] ::
           (getLoop b' rest2).2) := by
  subst hb1
  simp only [getLoop, hdec, packHH4_eq (b + 1) hb]
  rw [if_neg (by simp), if_neg hfull]

/-- The final accepted round trip of the download loop on a short payload. -/
lemma getLoop_last (b b' : Nat) (r : Buf) (rest2 : List (Option Buf))
    (hb1 : b' = b + 1) (hdec : unpackHH r = .ok (3, b')) (hb : b' < 65536)
    (hshort : (r.drop 4).length < 512) :
    getLoop b (some r :: rest2)
      = (.done, [.recvBuf r, .write (r.drop 4), .send [0, 4, b' / 256, b' % 256]]) := by
  subst hb1
  simp only [getLoop, hdec, packHH4_eq (b + 1) hb]
  rw [if_neg (by simp), if_pos hshort]

/-- Claim C5: a download in which the server sends DATA blocks 1, 2, 3 of 512
bytes each and block 4 of 200 bytes reaches `done` in exactly four
receive/acknowledge round trips; each block `k` is acknowledged with
`Ack(k)`, and the sink receives exactly the four payloads, one write each, in
block order. -/
theorem c5_four_block_download (p1 p2 p3 p4 : Buf)
    (h1 : p1.length = 512) (h2 : p2.length = 512) (h3 : p3.length = 512)
    (h4 : p4.length = 200) :
    handle_get [some ([0, 3, 0, 1] ++ p1), some ([0, 3, 0, 2] ++ p2),
                some ([0, 3, 0, 3] ++ p3), some ([0, 3, 0, 4] ++ p4)]
      = (.done,
         [.openFile,
          .recvBuf ([0, 3, 0, 1] ++ p1), .write p1, .send [0, 4, 0, 1],
          .recvBuf ([0, 3, 0, 2] ++ p2), .write p2, .send [0, 4, 0, 2],
          .recvBuf ([0, 3, 0, 3] ++ p3), .write p3, .send [0, 4, 0, 3],
          .recvBuf ([0, 3, 0, 4] ++ p4), .write p4, .send [0, 4, 0, 4]])
    ∧ writesOf (handle_get [some ([0, 3, 0, 1] ++ p1), some ([0, 3, 0, 2] ++ p2),
        some ([0, 3, 0, 3] ++ p3), some ([0, 3, 0, 4] ++ p4)]).2
      = [p1, p2, p3, p4]
    ∧ sentPackets (handle_get [some ([0, 3, 0, 1] ++ p1), some ([0, 3, 0, 2] ++ p2),
        some ([0, 3, 0, 3] ++ p3), some ([0, 3, 0, 4] ++ p4)]).2
      = [[0, 4, 0, 1], [0, 4, 0, 2], [0, 4, 0, 3], [0, 4, 0, 4]] := by
  have d1 : (([0, 3, 0, 1] ++ p1 : Buf)).drop 4 = p1 := rfl
  have d2 : (([0, 3, 0, 2] ++ p2 : Buf)).drop 4 = p2 := rfl
  have d3 : (([0, 3, 0, 3] ++ p3 : Buf)).drop 4 = p3 := rfl
  have d4 : (([0, 3, 0, 4] ++ p4 : Buf)).drop 4 = p4 := rfl
  have htrace : handle_get [some ([0, 3, 0, 1] ++ p1), some ([0, 3, 0, 2] ++ p2),
                some ([0, 3, 0, 3] ++ p3), some ([0, 3, 0, 4] ++ p4)]
      = (.done,
         [.openFile,
          .recvBuf ([0, 3, 0, 1] ++ p1), .write p1, .send [0, 4, 0, 1],
          .recvBuf ([0, 3, 0, 2] ++ p2), .write p2, .send [0, 4, 0, 2],
          .recvBuf ([0, 3, 0, 3] ++ p3), .write p3, .send [0, 4, 0, 3],
          .recvBuf ([0, 3, 0, 4] ++ p4), .write p4, .send [0, 4, 0, 4]]) := by
    have e1 : unpackHH ([0, 3, 0, 1] ++ p1) = Except.ok (3, 1) := rfl
    have e2 : unpackHH ([0, 3, 0, 2] ++ p2) = Except.ok (3, 2) := rfl
    have e3 : unpackHH ([0, 3, 0, 3] ++ p3) = Except.ok (3, 3) := rfl
    have e4 : unpackHH ([0, 3, 0, 4] ++ p4) = Except.ok (3, 4) := rfl
    rw [handle_get_eq,
        getLoop_step 0 1 ([0, 3, 0, 1] ++ p1) _ (by omega) e1 (by omega)
          (by rw [d1, h1]; omega),
        getLoop_step 1 2 ([0, 3, 0, 2] ++ p2) _ (by omega) e2 (by omega)
          (by rw [d2, h2]; omega),
        getLoop_step 2 3 ([0, 3, 0, 3] ++ p3) _ (by omega) e3 (by omega)
          (by rw [d3, h3]; omega),
        getLoop_last 3 4 ([0, 3, 0, 4] ++ p4) _ (by omega) e4 (by omega)
          (by rw [d4, h4]; omega)]
    rw [d1, d2, d3, d4]
  refine ⟨htrace, ?_, ?_⟩ <;> rw [htrace] <;> simp [writesOf, sentPackets]

/-- Witness for `c5_four_block_download` with constant payloads. -/
theorem c5_four_block_download_witness :
    handle_get [some ([0, 3, 0, 1] ++ List.replicate 512 65),
                some ([0, 3, 0, 2] ++ List.replicate 512 66),
                some ([0, 3, 0, 3] ++ List.replicate 512 67),
                some ([0, 3, 0, 4] ++ List.replicate 200 68)]
      = (.done,
         [.openFile,
          .recvBuf ([0, 3, 0, 1] ++ List.replicate 512 65),
          .write (List.replicate 512 65), .send [0, 4, 0, 1],
          .recvBuf ([0, 3, 0, 2] ++ List.replicate 512 66),
          .write (List.replicate 512 66), .send [0, 4, 0, 2],
          .recvBuf ([0, 3, 0, 3] ++ List.replicate 512 67),
          .write (List.replicate 512 67), .send [0, 4, 0, 3],
          .recvBuf ([0, 3, 0, 4] ++ List.replicate 200 68),
          .write (List.replicate 200 68), .send [0, 4, 0, 4]]) :=
  (c5_four_block_download (List.replicate 512 65) (List.replicate 512 66)
    (List.replicate 512 67) (List.replicate 200 68)
    (by rw [List.length_replicate]) (by rw [List.length_replicate])
    (by rw [List.length_replicate]) (by rw [List.length_replicate])).1

/-! ### Claim C9: the sink keeps every block written before a failure -/

lemma unpackHH_data_header (b : Nat) (p : Buf) :
    unpackHH ([0, 3, (b + 1) / 256, (b + 1) % 256] ++ p) = .ok (3, b + 1) := by
  have hxy : (b + 1) / 256 * 256 + (b + 1) % 256 = b + 1 := by omega
  show Except.ok (0 * 256 + 3, (b + 1) / 256 * 256 + (b + 1) % 256) = _
  rw [hxy]

/-- While the inbound script delivers in-sequence full DATA blocks, the
download loop writes and acknowledges each of them and continues behind
them. -/
lemma getLoop_dataScript :
    ∀ (ps : List Buf) (b : Nat) (rest script : List (Option Buf)),
      script = dataScript b ps ++ rest →
      (∀ p ∈ ps, p.length = 512) → b + ps.length ≤ 65535 →
      getLoop b script
        = ((getLoop (b + ps.length) rest).1,
           getOkTrace b ps ++ (getLoop (b + ps.length) rest).2) := by
  intro ps
  induction ps with
  | nil =>
    intro b rest script hscript _ _
    rw [hscript]
    simp [dataScript, getOkTrace]
  | cons p ps ih =>
    intro b rest script hscript hlen hb
    rw [hscript]
    show getLoop b ((some ([0, 3, (b + 1) / 256, (b + 1) % 256] ++ p)
        :: dataScript (b + 1) ps) ++ rest) = _
    rw [List.cons_append]
    have hp : p.length = 512 := hlen p (by simp)
    have hd : (([0, 3, (b + 1) / 256, (b + 1) % 256] ++ p : Buf)).drop 4 = p := rfl
    rw [getLoop_step b (b + 1) ([0, 3, (b + 1) / 256, (b + 1) % 256] ++ p) _ rfl
      (unpackHH_data_header b p) (by simp at hb; omega) (by rw [hd, hp]; omega)]
    rw [ih (b + 1) rest _ rfl (fun q hq => hlen q (by simp [hq]))
      (by simp at hb ⊢; omega)]
    rw [hd]
    have harith : b + 1 + ps.length = b + (p :: ps).length := by simp; omega
    rw [harith]
    simp [getOkTrace]

/-- A receive-script entry that the download loop at block `b` does not
accept: either a timeout, or a buffer that fails to unpack, or one whose
decoded header is not `DATA` for block `b + 1`. -/
def rejects (b : Nat) : Option Buf → Prop
  | none => True
  | some buf =>
    ∀ op rb, unpackHH buf = .ok (op, rb) → op ≠ 3 ∨ rb ≠ b + 1

lemma getLoop_rejects (b : Nat) (r : Option Buf) (rest2 : List (Option Buf))
    (hfail : rejects b r) :
    (getLoop b (r :: rest2)).1 ≠ .done ∧ (getLoop b (r :: rest2)).1 ≠ .hang
    ∧ writesOf (getLoop b (r :: rest2)).2 = [] := by
  rcases r with _ | buf
  · simp [getLoop, writesOf]
  · rcases h2 : unpackHH buf with e2 | ⟨op, rb⟩
    · simp [getLoop, h2, writesOf]
    · have hbad := hfail op rb h2
      simp [getLoop, h2, hbad, writesOf]

/-- Claim C9: the sink file is opened (truncated) before the first receive,
and a download that accepts `k` in-sequence full blocks and then fails — by
timeout, by a buffer that aborts decoding, or by an unexpected packet — has
written exactly those `k` payloads, one write per block, in order; the
failure removes nothing. -/
theorem c9_sink_keeps_written_blocks (ps : List Buf) (r : Option Buf)
    (rest2 : List (Option Buf))
    (hlen : ∀ p ∈ ps, p.length = 512) (hk : ps.length ≤ 65535)
    (hfail : rejects ps.length r) :
    (handle_get (dataScript 0 ps ++ r :: rest2)).2.head? = some Ev.openFile
    ∧ writesOf (handle_get (dataScript 0 ps ++ r :: rest2)).2 = ps
    ∧ (handle_get (dataScript 0 ps ++ r :: rest2)).1 ≠ .done
    ∧ (handle_get (dataScript 0 ps ++ r :: rest2)).1 ≠ .hang := by
  have hrun := getLoop_dataScript ps 0 (r :: rest2) _ rfl hlen (by omega)
  have hzero : (0 : Nat) + ps.length = ps.length := by omega
  rw [hzero] at hrun
  have hstep := getLoop_rejects ps.length r rest2 hfail
  have hw : ∀ (bb : Nat) (qs : List Buf), writesOf (getOkTrace bb qs) = qs := by
    intro bb qs
    induction qs generalizing bb with
    | nil => simp [getOkTrace, writesOf]
    | cons q qs ihq => simp [getOkTrace, writesOf] at ihq ⊢; exact ihq _
  rw [handle_get_eq]
  refine ⟨rfl, ?_, ?_, ?_⟩
  · show writesOf (Ev.openFile :: (getLoop 0 (dataScript 0 ps ++ r :: rest2)).2) = ps
    rw [hrun]
    show writesOf (getOkTrace 0 ps ++ (getLoop ps.length (r :: rest2)).2) = ps
    rw [writesOf, List.filterMap_append]
    rw [← writesOf, ← writesOf, hw, hstep.2.2, List.append_nil]
  · show (getLoop 0 (dataScript 0 ps ++ r :: rest2)).1 ≠ .done
    rw [hrun]
    exact hstep.1
  · show (getLoop 0 (dataScript 0 ps ++ r :: rest2)).1 ≠ .hang
    rw [hrun]
    exact hstep.2.1

/-- Witness for `c9_sink_keeps_written_blocks`: one full block accepted, then
a timeout; the sink holds exactly that block. -/
theorem c9_sink_keeps_written_blocks_witness :
    writesOf (handle_get (dataScript 0 [List.replicate 512 3] ++ [none])).2
      = [List.replicate 512 3]
    ∧ (handle_get (dataScript 0 [List.replicate 512 3] ++ [none])).1 ≠ .done :=
  ⟨(c9_sink_keeps_written_blocks [List.replicate 512 3] none []
      (by intro p hp; rw [List.mem_singleton] at hp; rw [hp, List.length_replicate])
      (by simp only [List.length_cons, List.length_nil]; omega)
      (by trivial)).2.1,
   (c9_sink_keeps_written_blocks [List.replicate 512 3] none []
      (by intro p hp; rw [List.mem_singleton] at hp; rw [hp, List.length_replicate])
      (by simp only [List.length_cons, List.length_nil]; omega)
      (by trivial)).2.2.1⟩

/-! ### Claim C8: request packet layout and round-trip -/

lemma splitAtNul_no_nul :
    ∀ (f rest : Buf), (∀ c ∈ f, c ≠ 0) →
      splitAtNul (f ++ 0 :: rest) = some (f, rest) := by
  intro f
  induction f with
  | nil =>
    intro rest _
    simp [splitAtNul]
  | cons c f ih =>
    intro rest h
    have hc : c ≠ 0 := h c (by simp)
    rw [List.cons_append]
    simp only [splitAtNul, hc, if_neg, ih rest (fun x hx => h x (by simp [hx]))]
    simp [hc]

lemma packS_pad_one (l : Buf) : packS (l.length + 1) l = l ++ [0] := by
  have h1 : l.take (l.length + 1) = l := List.take_of_length_le (by omega)
  have h2 : l.length + 1 - l.length = 1 := by omega
  rw [packS, h1, h2, List.replicate_one]

/-- Claim C8: for opcode RRQ(1) or WRQ(2) and a valid filename/mode pair
(non-empty, ASCII, no NUL byte), `build_request` produces exactly
`opcode(2B big-endian) | filename | 0x00 | mode | 0x00` (each `s` field of the
`struct.pack` format pads its string with one NUL), and decoding that buffer
per the spec's wire layout recovers `(opcode, filename, mode)` exactly. -/
theorem c8_request_layout_roundtrip (op : Nat) (f m : Buf)
    (hop : op = 1 ∨ op = 2) (hf : f ≠ []) (hm : m ≠ [])
    (hfc : ∀ c ∈ f, 0 < c ∧ c < 128) (hmc : ∀ c ∈ m, 0 < c ∧ c < 128) :
    build_request op f m = .ok ([op / 256, op % 256] ++ f ++ [0] ++ m ++ [0])
    ∧ decodeRequestSpec ([op / 256, op % 256] ++ f ++ [0] ++ m ++ [0])
      = some (op, f, m) := by
  have hdiv : op / 256 = 0 := by omega
  have hmod : op % 256 = op := by omega
  constructor
  · rw [build_request_small op (by omega), packS_pad_one, packS_pad_one]
    simp [List.append_assoc]
  · have hb : ([op / 256, op % 256] ++ f ++ [0] ++ m ++ [0] : Buf)
        = 0 :: op :: (f ++ 0 :: (m ++ 0 :: [])) := by
      rw [hdiv, hmod]
      simp
    rw [hb]
    have hs1 : splitAtNul (f ++ 0 :: (m ++ 0 :: [])) = some (f, m ++ 0 :: []) :=
      splitAtNul_no_nul f (m ++ 0 :: []) (fun c hc => by have := hfc c hc; omega)
    have hs2 : splitAtNul (m ++ 0 :: []) = some (m, []) :=
      splitAtNul_no_nul m [] (fun c hc => by have := hmc c hc; omega)
    simp only [decodeRequestSpec, hs1, hs2]
    rw [if_pos (by omega)]
    rw [if_pos trivial]
    have : 0 * 256 + op = op := by omega
    rw [this]

/-- Witness for `c8_request_layout_roundtrip` at WRQ, filename `"a"`, mode
`"octet"`. -/
theorem c8_request_layout_roundtrip_witness :
    build_request 2 [97] [111, 99, 116, 101, 116]
      = .ok ([2 / 256, 2 % 256] ++ [97] ++ [0] ++ [111, 99, 116, 101, 116] ++ [0])
    ∧ decodeRequestSpec
        ([2 / 256, 2 % 256] ++ [97] ++ [0] ++ [111, 99, 116, 101, 116] ++ [0])
      = some (2, [97], [111, 99, 116, 101, 116]) :=
  c8_request_layout_roundtrip 2 [97] [111, 99, 116, 101, 116]
    (by omega) (by simp) (by simp) (by decide) (by decide)

end TFTP
